import Mathlib

/-!
Verification of the tasknode protocol engine against its specification.

The definitions below are shallow embeddings of the Python and SQL sources
of the repository:
- tasknode/task_processing/core_business_logic.py
- tasknode/task_processing/user_context_parsing.py
- migrations/alembic/versions/9f3a2739d4c5_create_initial_functions_and_triggers.py

Python strings are modelled as Lean String values, with character-level
operations carried out on List Char so that every definition is executable
by kernel reduction.  Machine-level numerics (SQL NUMERIC, Python int) are
modelled by Rat and Int.  Fallible Python code (raise / try-except) is
modelled with Except, and SQL NULL with Option.
-/

/-! ## Generic string helpers (Python semantics, character-list level) -/

/-- The whitespace characters stripped by the Python str.strip method
(ASCII subset: space, tab, newline, carriage return, vertical tab, form feed). -/
def pyIsSpace (c : Char) : Bool :=
  c = ' ' || c = '\t' || c = '\n' || c = '\x0d' || c = '\x0b' || c = '\x0c'

/-- Python str.strip: drop leading and trailing whitespace. -/
def pyStrip (l : List Char) : List Char :=
  ((l.dropWhile pyIsSpace).reverse.dropWhile pyIsSpace).reverse

/-- Number of non-whitespace characters in a string. -/
def countNonWs (l : List Char) : Nat :=
  (l.filter (fun c => !pyIsSpace c)).length

/-- Worker for splitOnSep, with explicit fuel so that it is structurally
recursive and reducible by the kernel.  Splits on the leftmost occurrences of
the (non-empty) separator, exactly like the Python str.split method with a
non-empty separator argument. -/
def splitGo (sep : List Char) : Nat → List Char → List (List Char)
  | 0, l => [l]
  | _ + 1, [] => [[]]
  | fuel + 1, c :: rest =>
    if sep.isPrefixOf (c :: rest) then
      [] :: splitGo sep fuel ((c :: rest).drop sep.length)
    else
      match splitGo sep fuel rest with
      | [] => [[c]]
      | h :: t => (c :: h) :: t

/-- Python str.split with a non-empty separator. -/
def splitOnSep (sep l : List Char) : List (List Char) :=
  splitGo sep l.length l

/-- Digit accumulator for pyParseInt: digits, with single underscores allowed
between digits as in the Python int constructor. -/
def pyParseDigits : Nat → List Char → Option Nat
  | acc, [] => some acc
  | acc, '_' :: d :: rest =>
    if d.isDigit then pyParseDigits (acc * 10 + (d.toNat - '0'.toNat)) rest else none
  | _, ['_'] => none
  | acc, d :: rest =>
    if d.isDigit then pyParseDigits (acc * 10 + (d.toNat - '0'.toNat)) rest else none

/-- The Python int constructor applied to an already-stripped string:
an optional sign followed by at least one ASCII digit (underscores permitted
between digits); anything else raises, modelled by none. -/
def pyParseInt (l : List Char) : Option Int :=
  match l with
  | '-' :: d :: rest =>
    if d.isDigit then (pyParseDigits (d.toNat - '0'.toNat) rest).map (fun n => -(n : Int)) else none
  | '+' :: d :: rest =>
    if d.isDigit then (pyParseDigits (d.toNat - '0'.toNat) rest).map (fun n => (n : Int)) else none
  | d :: rest =>
    if d.isDigit then (pyParseDigits (d.toNat - '0'.toNat) rest).map (fun n => (n : Int)) else none
  | [] => none

/-- Substring containment test on character lists, used to state claims of the
form "content containing X". -/
def containsSeq (pat : List Char) : List Char → Bool
  | [] => pat.isPrefixOf []
  | c :: rest => pat.isPrefixOf (c :: rest) || containsSeq pat rest

/-- SQL LIKE pattern matching with the percent and underscore wildcards,
fuel-based so that it is structurally recursive. -/
def likeGo : Nat → List Char → List Char → Bool
  | 0, _, _ => false
  | _ + 1, [], [] => true
  | fuel + 1, '%' :: ps, s =>
    likeGo fuel ps s ||
      (match s with
       | [] => false
       | _ :: t => likeGo fuel ('%' :: ps) t)
  | fuel + 1, '_' :: ps, _ :: t => likeGo fuel ps t
  | fuel + 1, p :: ps, c :: t => p = c && likeGo fuel ps t
  | _ + 1, _ :: _, [] => false
  | _ + 1, [], _ :: _ => false

/-- SQL LIKE. -/
def likeMatch (pat s : List Char) : Bool :=
  likeGo (pat.length + s.length + 1) pat s

/-! ## Shared protocol data types -/

/-- ValidationResult from nodetools.models.models: a validity flag plus an
optional business note. -/
structure ValidationResultM where
  valid : Bool
  notes : Option String
deriving DecidableEq

/-- The slice of MemoTransaction used by the rules verified here. -/
structure MemoTransactionM where
  hash : String
  account : String
  destination : String
  memo_type : String
  memo_data : String
  pft_amount : Rat
  datetime : Nat
deriving DecidableEq

/-! ## InitiationRiteRule.is_valid_initiation_rite
(core_business_logic.py lines 367-380) -/

/-- Embedding of InitiationRiteRule.is_valid_initiation_rite: reject a
non-string or empty value, strip leading and trailing whitespace, and require
at least 10 remaining characters. -/
def is_valid_initiation_rite (rite_text : String) : Bool :=
  if rite_text = "" then false
  else decide (10 ≤ (pyStrip rite_text.data).length)

/-! ## RewardResponseGenerator._extract_pft_reward
(core_business_logic.py lines 1278-1285) -/

def MIN_REWARD_AMOUNT : Int := 1
def MAX_REWARD_AMOUNT : Int := 1200

/-- The inner expression of _extract_pft_reward before the int conversion:
split the content on the marker, keep the last segment, delete every pipe
character and strip whitespace; then parse with the Python int constructor.
A parse failure models the exception caught by the enclosing try block. -/
def extractRewardInt (content : String) : Option Int :=
  pyParseInt
    (pyStrip
      (((splitOnSep ("| Total PFT Rewarded |".data) content.data).getLastD []).filter
        (fun c => c ≠ '|')))

/-- Embedding of RewardResponseGenerator._extract_pft_reward: absolute value
clamped to [MIN_REWARD_AMOUNT, MAX_REWARD_AMOUNT] on success, and
MIN_REWARD_AMOUNT when the extraction raises. -/
def extract_pft_reward (content : String) : Int :=
  match extractRewardInt content with
  | some reward => min (max |reward| MIN_REWARD_AMOUNT) MAX_REWARD_AMOUNT
  | none => MIN_REWARD_AMOUNT

/-! ## ODVRequestRule.validate (core_business_logic.py lines 1384-1421) -/

def REQUIRE_AUTHORIZATION : Bool := false
def BASE_PFT_COST : Rat := 1

/-- The collaborators consulted by ODVRequestRule.validate.  A collaborator
I/O failure (an exception raised inside the call) is modelled by the error
branch of Except. -/
structure ODVDeps where
  remembrancer_address : String
  pft_balance : Except String Rat
  is_address_authorized : Except String Bool

/-- The tail of the validate body after the balance and authorization gates:
the BASE_PFT_COST fee gate and the success result. -/
def odvCostGate (tx : MemoTransactionM) : ValidationResultM :=
  if tx.pft_amount < BASE_PFT_COST then
    ⟨false, some "PFT amount is less than BASE_PFT_COST"⟩
  else ⟨true, none⟩

/-- Embedding of ODVRequestRule.validate.  The whole body sits inside a
try-except block: any exception raised by a collaborator lookup is caught and
turned into the error-notes result (valid=false), exactly as in the source. -/
def odv_request_validate (tx : MemoTransactionM) (deps : ODVDeps) : ValidationResultM :=
  if tx.destination ≠ deps.remembrancer_address then
    ⟨false, some "Destination is not the remembrancer address"⟩
  else
    match deps.pft_balance with
    | Except.error _ => ⟨false, some "Error validating ODV request"⟩
    | Except.ok balance =>
      if balance < 2000 then ⟨false, some "PFT balance is less than 2000"⟩
      else
        if REQUIRE_AUTHORIZATION then
          match deps.is_address_authorized with
          | Except.error _ => ⟨false, some "Error validating ODV request"⟩
          | Except.ok is_authorized =>
            if !is_authorized then ⟨false, some "Address is not authorized"⟩
            else odvCostGate tx
        else odvCostGate tx

/-! ## The UNIQUE_ID memo-type token

The regular expression UNIQUE_ID_PATTERN_V1 is imported by the sources from
the external nodetools package, which is not part of this repository.

Modelled from the spec: task memo_types follow UNIQUE_ID__SUFFIX, where
UNIQUE_ID is a versioned timestamp token with an optional 4-character random
disambiguator, for example v1.0.2025-01-13_06:53__QQ74.  The matcher below
realises that shape: the literal version prefix v1.0., a timestamp of the
form dddd-dd-dd_dd:dd, and an optional greedy __ followed by four characters
drawn from A-Z and 0-9.  Search scans left to right for the first matching
position, as the Python re.search method does. -/

def isUpperOrDigit (c : Char) : Bool :=
  c.isUpper || c.isDigit

/-- One fixed-shape element of the pattern: a literal or a digit run. -/
inductive Tok where
  | lit (s : List Char)
  | dig (n : Nat)

/-- Expect a literal character sequence; return the rest on success. -/
def expectLit : List Char → List Char → Option (List Char)
  | [], l => some l
  | _ :: _, [] => none
  | c :: cs, x :: xs => if x = c then expectLit cs xs else none

/-- Expect exactly n decimal digits; return them and the rest. -/
def expectDigits : Nat → List Char → Option (List Char × List Char)
  | 0, l => some ([], l)
  | _ + 1, [] => none
  | n + 1, c :: cs =>
    if c.isDigit then (expectDigits n cs).map (fun p => (c :: p.1, p.2)) else none

/-- Run a token sequence, returning consumed characters and the rest. -/
def runToks : List Tok → List Char → Option (List Char × List Char)
  | [], l => some ([], l)
  | Tok.lit s :: ts, l =>
    match expectLit s l with
    | none => none
    | some r =>
      match runToks ts r with
      | none => none
      | some (m, rest) => some (s ++ m, rest)
  | Tok.dig n :: ts, l =>
    match expectDigits n l with
    | none => none
    | some (d, r) =>
      match runToks ts r with
      | none => none
      | some (m, rest) => some (d ++ m, rest)

/-- The mandatory core of the unique id: version prefix plus timestamp. -/
def coreToks : List Tok :=
  [Tok.lit "v1.0.".data, Tok.dig 4, Tok.lit ['-'], Tok.dig 2, Tok.lit ['-'],
   Tok.dig 2, Tok.lit ['_'], Tok.dig 2, Tok.lit [':'], Tok.dig 2]

/-- The optional greedy disambiguator: two underscores and four characters
from A-Z and 0-9. -/
def matchDisambAt (l : List Char) : Option (List Char × List Char) :=
  match l with
  | a :: b :: c1 :: c2 :: c3 :: c4 :: rest =>
    if a = '_' ∧ b = '_' ∧ isUpperOrDigit c1 = true ∧ isUpperOrDigit c2 = true ∧
        isUpperOrDigit c3 = true ∧ isUpperOrDigit c4 = true then
      some ([a, b, c1, c2, c3, c4], rest)
    else none
  | _ => none

/-- Match the unique-id pattern anchored at the head of the list; the greedy
optional disambiguator is taken whenever it matches. -/
def matchUniqueIdAt (l : List Char) : Option (List Char × List Char) :=
  match runToks coreToks l with
  | none => none
  | some (m, rest) =>
    match matchDisambAt rest with
    | some (d, rest2) => some (m ++ d, rest2)
    | none => some (m, rest)

/-- Leftmost search for the unique-id pattern (the re.search semantics). -/
def searchUniqueId : List Char → Option (List Char)
  | [] =>
    match matchUniqueIdAt [] with
    | some (m, _) => some m
    | none => none
  | c :: t =>
    match matchUniqueIdAt (c :: t) with
    | some (m, _) => some m
    | none => searchUniqueId t

/-- A complete unique id: the anchored match consumes the whole string. -/
def IsUniqueId (u : List Char) : Prop :=
  matchUniqueIdAt u = some (u, [])

instance (u : List Char) : Decidable (IsUniqueId u) := by
  unfold IsUniqueId; infer_instance

/-! ## derive_response_memo_type (core_business_logic.py lines 338-358) -/

/-- Embedding of derive_response_memo_type: search the request memo_type for
the unique-id token, then append the response suffix; a memo_type without the
token raises ValueError, modelled by the error branch. -/
def derive_response_memo_type (request_memo_type response_memo_type : String) :
    Except String String :=
  match searchUniqueId request_memo_type.data with
  | none =>
    Except.error ("Could not extract task_id from memo_type: " ++ request_memo_type)
  | some task_id =>
    Except.ok (String.mk (task_id ++ ('_' :: '_' :: response_memo_type.data)))

/-! ## Task lifecycle reconstruction (user_context_parsing.py) -/

/-- TaskType from tasknode/task_processing/constants.py. -/
inductive TaskTypeM where
  | TASK_REQUEST
  | PROPOSAL
  | ACCEPTANCE
  | REFUSAL
  | TASK_COMPLETION
  | VERIFICATION_PROMPT
  | VERIFICATION_RESPONSE
  | REWARD
deriving DecidableEq

/-- The TaskType constructor applied to a string: the enum lookup raises
ValueError on any other string, modelled by none. -/
def taskTypeOf? (s : String) : Option TaskTypeM :=
  if s = "TASK_REQUEST" then some TaskTypeM.TASK_REQUEST
  else if s = "PROPOSAL" then some TaskTypeM.PROPOSAL
  else if s = "ACCEPTANCE" then some TaskTypeM.ACCEPTANCE
  else if s = "REFUSAL" then some TaskTypeM.REFUSAL
  else if s = "TASK_COMPLETION" then some TaskTypeM.TASK_COMPLETION
  else if s = "VERIFICATION_PROMPT" then some TaskTypeM.VERIFICATION_PROMPT
  else if s = "VERIFICATION_RESPONSE" then some TaskTypeM.VERIFICATION_RESPONSE
  else if s = "REWARD" then some TaskTypeM.REWARD
  else none

/-- A MemoGroup as consumed by Task.from_memo_groups: its group_id (the memo
type shared by the group), the datetime of its first memo, the content
returned by MemoProcessor.parse_group (none models both a parse failure and a
None result), and the PFT amount attached to the group. -/
structure MemoGroupM where
  group_id : String
  datetime : Nat
  parsed : Option String
  pft_amount : Rat
deriving DecidableEq

/-- The Task dataclass.  The fields completion_datetime and
reward_response_datetime do not appear in the dataclass declaration: they are
the attributes actually assigned by from_memo_groups for the completion and
reward branches (Python object attribute assignment silently creates them),
while the declared fields task_completion_datetime and reward_datetime are
never written by from_memo_groups. -/
structure TaskM where
  task_id : String
  task_request : String
  request_datetime : Nat
  proposal : Option String := none
  proposal_datetime : Option Nat := none
  acceptance : Option String := none
  acceptance_datetime : Option Nat := none
  refusal : Option String := none
  refusal_datetime : Option Nat := none
  task_completion : Option String := none
  task_completion_datetime : Option Nat := none
  verification_prompt : Option String := none
  verification_prompt_datetime : Option Nat := none
  verification_response : Option String := none
  verification_response_datetime : Option Nat := none
  reward : Option String := none
  reward_datetime : Option Nat := none
  pft_amount : Rat := 0
  completion_datetime : Option Nat := none
  reward_response_datetime : Option Nat := none
deriving DecidableEq

/-- Python truthiness of an optional string: None and the empty string are
falsy. -/
def truthy : Option String → Bool
  | none => false
  | some s => s ≠ ""

/-- Embedding of the Task.current_state property: test the lifecycle fields
in the fixed order of the source and return the first truthy one. -/
def current_state (t : TaskM) : TaskTypeM :=
  if truthy t.reward then TaskTypeM.REWARD
  else if truthy t.verification_response then TaskTypeM.VERIFICATION_RESPONSE
  else if truthy t.verification_prompt then TaskTypeM.VERIFICATION_PROMPT
  else if truthy t.task_completion then TaskTypeM.TASK_COMPLETION
  else if truthy t.refusal then TaskTypeM.REFUSAL
  else if truthy t.acceptance then TaskTypeM.ACCEPTANCE
  else if truthy t.proposal then TaskTypeM.PROPOSAL
  else TaskTypeM.TASK_REQUEST

/-- Embedding of Task.extract_task_id: the anchored re.match against the
unique-id pattern; none models the ValueError raised on a non-matching
memo_type. -/
def extract_task_id (memo_type : String) : Option String :=
  (matchUniqueIdAt memo_type.data).map (fun p => String.mk p.1)

/-- Stable insertion of a group into a list sorted by datetime descending:
the inserted element goes after every element with an equal or later
datetime, which reproduces the stable Python sorted(..., reverse=True). -/
def insertDesc (g : MemoGroupM) : List MemoGroupM → List MemoGroupM
  | [] => [g]
  | h :: t => if h.datetime < g.datetime then g :: h :: t else h :: insertDesc g t

/-- Stable sort by first-memo datetime, latest first. -/
def sortGroupsDesc : List MemoGroupM → List MemoGroupM
  | [] => []
  | g :: gs => insertDesc g (sortGroupsDesc gs)

/-- One iteration of the for-loop in from_memo_groups: skip the request
group, skip groups whose parsed content is falsy, raise on a suffix that is
not a TaskType, and otherwise overwrite the field selected by the suffix. -/
def stepGroup (request_group : MemoGroupM) (acc : Except String TaskM)
    (g : MemoGroupM) : Except String TaskM := do
  let t ← acc
  if g = request_group then
    pure t
  else
    match g.parsed with
    | none => pure t
    | some content =>
      if content = "" then
        pure t
      else
        match taskTypeOf? (String.mk ((splitOnSep ['_', '_'] g.group_id.data).getLastD [])) with
        | none => Except.error "invalid TaskType suffix"
        | some state_type =>
          pure <|
            match state_type with
            | TaskTypeM.PROPOSAL =>
              { t with proposal := some content, proposal_datetime := some g.datetime }
            | TaskTypeM.ACCEPTANCE =>
              { t with acceptance := some content, acceptance_datetime := some g.datetime }
            | TaskTypeM.REFUSAL =>
              { t with refusal := some content, refusal_datetime := some g.datetime }
            | TaskTypeM.TASK_COMPLETION =>
              { t with task_completion := some content, completion_datetime := some g.datetime }
            | TaskTypeM.VERIFICATION_PROMPT =>
              { t with verification_prompt := some content,
                       verification_prompt_datetime := some g.datetime }
            | TaskTypeM.VERIFICATION_RESPONSE =>
              { t with verification_response := some content,
                       verification_response_datetime := some g.datetime }
            | TaskTypeM.REWARD =>
              { t with reward := some content, reward_response_datetime := some g.datetime,
                       pft_amount := g.pft_amount }
            | TaskTypeM.TASK_REQUEST => t

/-- Embedding of Task.from_memo_groups: sort the groups by first-memo
datetime with the latest first, take the first group whose id ends with
TASK_REQUEST as the request, then fold the loop body over the sorted list. -/
def from_memo_groups (memo_groups : List MemoGroupM) : Except String TaskM :=
  let sorted_groups := sortGroupsDesc memo_groups
  match sorted_groups.find? (fun g => "TASK_REQUEST".data.isSuffixOf g.group_id.data) with
  | none => Except.error "No TASK_REQUEST found in memo groups"
  | some request_group =>
    match extract_task_id request_group.group_id with
    | none => Except.error "Invalid memo_type format"
    | some task_id =>
      match request_group.parsed with
      | none => Except.error "Could not parse request from group"
      | some request =>
        if request = "" then Except.error "Could not parse request from group"
        else
          sorted_groups.foldl (stepGroup request_group)
            (Except.ok
              { task_id := task_id
                task_request := request
                request_datetime := request_group.datetime })

/-! ## decode_hex_memo (migration 9f3a2739d4c5, lines 23-37)

The SQL function delegates hex decoding and UTF-8 conversion to the
PostgreSQL builtins decode(text, hex) and convert_from(bytea, UTF8); these
two builtins are modelled below.  A decoding error raised by either builtin
is modelled by the error branch of Except. -/

/-- Value of a hexadecimal digit. -/
def hexVal? (c : Char) : Option Nat :=
  if c.isDigit then some (c.toNat - '0'.toNat)
  else if 'a' ≤ c ∧ c ≤ 'f' then some (c.toNat - 'a'.toNat + 10)
  else if 'A' ≤ c ∧ c ≤ 'F' then some (c.toNat - 'A'.toNat + 10)
  else none

/-- PostgreSQL decode(text, hex): pairs of hexadecimal digits to bytes, with
whitespace permitted between pairs but not inside a pair. -/
def decodeHexList : List Char → Option (List Nat)
  | [] => some []
  | c :: rest =>
    if pyIsSpace c then decodeHexList rest
    else
      match rest with
      | [] => none
      | c2 :: rest2 =>
        match hexVal? c, hexVal? c2 with
        | some h1, some h2 =>
          (decodeHexList rest2).map (fun bs => (16 * h1 + h2) :: bs)
        | _, _ => none

/-- Is a byte a UTF-8 continuation byte. -/
def isCont (b : Nat) : Bool := 0x80 ≤ b && b ≤ 0xBF

/-- Strict UTF-8 decoding of a byte list to characters, rejecting overlong
encodings, surrogates and out-of-range code points, as the PostgreSQL
convert_from builtin does. -/
def utf8Decode : List Nat → Option (List Char)
  | [] => some []
  | b :: rest =>
    if b < 0x80 then
      (utf8Decode rest).map (fun cs => Char.ofNat b :: cs)
    else if 0xC2 ≤ b && b ≤ 0xDF then
      match rest with
      | b2 :: rest2 =>
        if isCont b2 then
          (utf8Decode rest2).map
            (fun cs => Char.ofNat ((b - 0xC0) * 0x40 + (b2 - 0x80)) :: cs)
        else none
      | _ => none
    else if 0xE0 ≤ b && b ≤ 0xEF then
      match rest with
      | b2 :: b3 :: rest3 =>
        let lowOk : Bool :=
          if b = 0xE0 then 0xA0 ≤ b2 && b2 ≤ 0xBF
          else if b = 0xED then 0x80 ≤ b2 && b2 ≤ 0x9F
          else isCont b2
        if lowOk && isCont b3 then
          (utf8Decode rest3).map
            (fun cs =>
              Char.ofNat ((b - 0xE0) * 0x1000 + (b2 - 0x80) * 0x40 + (b3 - 0x80)) :: cs)
        else none
      | _ => none
    else if 0xF0 ≤ b && b ≤ 0xF4 then
      match rest with
      | b2 :: b3 :: b4 :: rest4 =>
        let lowOk : Bool :=
          if b = 0xF0 then 0x90 ≤ b2 && b2 ≤ 0xBF
          else if b = 0xF4 then 0x80 ≤ b2 && b2 ≤ 0x8F
          else isCont b2
        if lowOk && isCont b3 && isCont b4 then
          (utf8Decode rest4).map
            (fun cs =>
              Char.ofNat
                ((b - 0xF0) * 0x40000 + (b2 - 0x80) * 0x1000 +
                  (b3 - 0x80) * 0x40 + (b4 - 0x80)) :: cs)
        else none
      | _ => none
    else none

/-- Hex-decode a character list and convert the bytes from UTF-8. -/
def hexToUtf8 (l : List Char) : Except String String :=
  match decodeHexList l with
  | none => Except.error "invalid hexadecimal data"
  | some bytes =>
    match utf8Decode bytes with
    | none => Except.error "invalid byte sequence for encoding UTF8"
    | some cs => Except.ok (String.mk cs)

/-- Embedding of decode_hex_memo: a null input yields the empty string; a
text beginning with the two literal characters backslash-x is decoded from
the third character on; any other text is decoded whole. -/
def decode_hex_memo (memo_text : Option String) : Except String String :=
  match memo_text with
  | none => Except.ok ""
  | some s =>
    if "\\x".data.isPrefixOf s.data then hexToUtf8 (s.data.drop 2)
    else hexToUtf8 s.data

/-! ## find_transaction_response (migration 9f3a2739d4c5, lines 41-71) -/

/-- A row of the decoded_memos projection, as read by
find_transaction_response.  account and destination come from the parsed
transaction JSON; close_time is the close timestamp. -/
structure MemoRow where
  hash : String
  account : String
  destination : String
  memo_type : String
  memo_format : Option String
  memo_data : Option String
  transaction_result : String
  close_time : Nat
deriving DecidableEq

/-- The WHERE clause of find_transaction_response.  Note that the
response_memo_type parameter is compared against the memo_type column with
equality, while the response_memo_data parameter is compared with LIKE. -/
def ftrPred (request_account : String) (request_time : Nat)
    (response_memo_type : String) (response_memo_format response_memo_data : Option String)
    (require_after_request : Bool) (d : MemoRow) : Bool :=
  d.destination = request_account &&
  d.transaction_result = "tesSUCCESS" &&
  (!require_after_request || request_time < d.close_time) &&
  d.memo_type = response_memo_type &&
  (match response_memo_format with
   | none => true
   | some f => d.memo_format = some f) &&
  (match response_memo_data with
   | none => true
   | some p =>
     match d.memo_data with
     | none => false
     | some dat => likeMatch p.data dat.data)

/-- The ORDER BY close_time_iso ASC ordering. -/
def rowLe (a b : MemoRow) : Prop := a.close_time ≤ b.close_time

instance : DecidableRel rowLe := fun a b => Nat.decLe a.close_time b.close_time

instance : IsTotal MemoRow rowLe := ⟨fun a b => Nat.le_total a.close_time b.close_time⟩

instance : IsTrans MemoRow rowLe := ⟨fun _ _ _ h1 h2 => Nat.le_trans h1 h2⟩

/-- Embedding of find_transaction_response: filter decoded_memos with the
WHERE clause, order by close time ascending, and return at most one row. -/
def find_transaction_response (rows : List MemoRow)
    (request_account : String) (request_destination : String) (request_time : Nat)
    (response_memo_type : String)
    (response_memo_format : Option String := none)
    (response_memo_data : Option String := none)
    (require_after_request : Bool := true) : Option MemoRow :=
  ((rows.filter
      (ftrPred request_account request_time response_memo_type
        response_memo_format response_memo_data require_after_request)).insertionSort
    rowLe).head?

/-- The request-side parameters a RequestRule hands to
find_transaction_response through a ResponseQuery. -/
structure ResponseQueryM where
  account : String
  destination : String
  request_time : Nat
  response_memo_type : String
  require_after_request : Bool
deriving DecidableEq

/-- Execute a built query against the projection rows. -/
def runResponseQuery (rows : List MemoRow) (q : ResponseQueryM) : Option MemoRow :=
  find_transaction_response rows q.account q.destination q.request_time
    q.response_memo_type none none q.require_after_request

/-! ## Pairing queries of the initiation-rite and handshake rules
(core_business_logic.py lines 409-443 and 576-605)

Modelled from the spec: the SystemMemoType suffix values INITIATION_REWARD
and HANDSHAKE_RESPONSE live in the external nodetools package; the spec names
these archetype suffixes directly, and the suffix strings below follow it. -/

def INITIATION_REWARD_VALUE : String := "INITIATION_REWARD"
def HANDSHAKE_RESPONSE_VALUE : String := "HANDSHAKE_RESPONSE"

/-- The runtime configuration flags read by
InitiationRiteRule._should_require_after_request. -/
structure RuntimeConfigM where
  USE_TESTNET : Bool
  ENABLE_REINITIATIONS : Bool
deriving DecidableEq

/-- Embedding of InitiationRiteRule._should_require_after_request. -/
def should_require_after_request (cfg : RuntimeConfigM) : Bool :=
  cfg.USE_TESTNET && cfg.ENABLE_REINITIATIONS

/-- Embedding of InitiationRiteRule.find_response: a percent-prefixed
suffix wildcard for the response memo_type, and the runtime-configured
time-ordering flag. -/
def initiation_rite_find_response (cfg : RuntimeConfigM)
    (request_tx : MemoTransactionM) : ResponseQueryM :=
  { account := request_tx.account
    destination := request_tx.destination
    request_time := request_tx.datetime
    response_memo_type := "%" ++ INITIATION_REWARD_VALUE
    require_after_request := should_require_after_request cfg }

/-- Embedding of HandshakeRequestRule.find_response: a percent-prefixed
suffix wildcard for the response memo_type, with require_after_request
hard-coded to TRUE in the query text. -/
def handshake_find_response (request_tx : MemoTransactionM) : ResponseQueryM :=
  { account := request_tx.account
    destination := request_tx.destination
    request_time := request_tx.datetime
    response_memo_type := "%" ++ HANDSHAKE_RESPONSE_VALUE
    require_after_request := true }

/-! ## update_pft_holders (migration 9f3a2739d4c5, lines 125-194) -/

/-- A row of the pft_holders table, keyed externally by account. -/
structure HolderRow where
  balance : Rat
  last_updated : Nat
  last_tx_hash : String
deriving DecidableEq

/-- The pft_holders table: an association list with the account as primary
key (no duplicate keys in a well-formed table). -/
abbrev Holders := List (String × HolderRow)

/-- The transaction_memos row seen by the trigger; account, destination and
pft_amount are nullable. -/
structure TxMemoRow where
  hash : String
  account : Option String
  destination : Option String
  pft_amount : Option Rat
  datetime : Nat
  transaction_result : String
deriving DecidableEq

/-- Balance of an account, with a missing row read as NULL. -/
def lookupBalance (hs : Holders) (a : String) : Option Rat :=
  (hs.lookup a).map HolderRow.balance

/-- INSERT ... ON CONFLICT (account) DO UPDATE: replace the row of an
existing account in place, or append a new row. -/
def upsertHolder : Holders → String → HolderRow → Holders
  | [], a, r => [(a, r)]
  | (b, rb) :: t, a, r =>
    if b = a then (b, r) :: t else (b, rb) :: upsertHolder t a r

/-- Embedding of the update_pft_holders trigger: skip non-tesSUCCESS rows;
subtract the amount from the sender (missing row read as balance 0), then add
it to the recipient, each guarded by the corresponding NULL checks; the
recipient update reads the state left by the sender update. -/
def update_pft_holders (hs : Holders) (tx : TxMemoRow) : Holders :=
  if tx.transaction_result ≠ "tesSUCCESS" then hs
  else
    let hs1 :=
      match tx.account, tx.pft_amount with
      | some acct, some amt =>
        upsertHolder hs acct
          ⟨((lookupBalance hs acct).getD 0) - amt, tx.datetime, tx.hash⟩
      | _, _ => hs
    match tx.destination, tx.pft_amount with
    | some dest, some amt =>
      upsertHolder hs1 dest
        ⟨((lookupBalance hs1 dest).getD 0) + amt, tx.datetime, tx.hash⟩
    | _, _ => hs1

/-- Sum of all balances in the holders table. -/
def totalBalance (hs : Holders) : Rat :=
  (hs.map (fun p => p.2.balance)).sum

/-! ## Concrete scenario inputs used by the theorems below -/

/-- A task request group (first-memo datetime 10). -/
def c1ReqGroup : MemoGroupM :=
  ⟨"v1.0.2025-01-13_06:53__QQ74__TASK_REQUEST", 10, some "please give me a task", 0⟩

/-- A proposal group with the later datetime 30. -/
def c1LateGroup : MemoGroupM :=
  ⟨"v1.0.2025-01-13_06:53__QQ74__PROPOSAL", 30, some "late proposal", 0⟩

/-- A second proposal group of the same task with the earlier datetime 20. -/
def c1EarlyGroup : MemoGroupM :=
  ⟨"v1.0.2025-01-13_06:53__QQ74__PROPOSAL", 20, some "early proposal", 0⟩

/-- An ODV request addressed to the remembrancer. -/
def c2Tx : MemoTransactionM :=
  ⟨"HODV", "rUSER", "rREMEMBRANCER", "v1.0.2025-03-01_09:00__ZZ99__ODV_REQUEST",
   "odv question", 1, 500⟩

/-- Dependencies in which the PFT balance lookup fails with an I/O error. -/
def c2Deps : ODVDeps :=
  ⟨"rREMEMBRANCER", Except.error "connection refused", Except.ok true⟩

/-- A fully advanced task: populated request, proposal, acceptance and
reward fields. -/
def c3Task : TaskM :=
  { task_id := "v1.0.2025-01-13_06:53__QQ74"
    task_request := "please give me a task"
    request_datetime := 10
    proposal := some "a proposal"
    proposal_datetime := some 20
    acceptance := some "accepted"
    acceptance_datetime := some 30
    reward := some "reward text"
    pft_amount := 25 }

/-- The four request-to-response derivations performed by the response
generators in core_business_logic.py: task request to proposal, task
completion to verification prompt, verification response to reward, and ODV
request to ODV response. -/
inductive DerivationPair where
  | postFiat
  | taskOutput
  | verification
  | odv
deriving DecidableEq

/-- Request memo_type suffix of a derivation pair. -/
def DerivationPair.req : DerivationPair → String
  | DerivationPair.postFiat => "TASK_REQUEST"
  | DerivationPair.taskOutput => "TASK_COMPLETION"
  | DerivationPair.verification => "VERIFICATION_RESPONSE"
  | DerivationPair.odv => "ODV_REQUEST"

/-- Response memo_type suffix of a derivation pair. -/
def DerivationPair.resp : DerivationPair → String
  | DerivationPair.postFiat => "PROPOSAL"
  | DerivationPair.taskOutput => "VERIFICATION_PROMPT"
  | DerivationPair.verification => "REWARD"
  | DerivationPair.odv => "ODV_RESPONSE"

/-- An initiation rite request from rUSER observed at time 100. -/
def c8ReqTx : MemoTransactionM :=
  ⟨"H0", "rUSER", "rNODE", "v1.0.2025-02-01_10:00__AB12__INITIATION_RITE",
   "my initiation rite text", 1, 100⟩

/-- A successful initiation reward already recorded for rUSER at time 50:
its memo_type carries the INITIATION_REWARD suffix. -/
def c8RewardRow : MemoRow :=
  ⟨"H1", "rNODE", "rUSER", "v1.0.2025-01-13_06:53__INITIATION_REWARD", none,
   some "initiation reward text", "tesSUCCESS", 50⟩

/-- Mainnet configuration: USE_TESTNET and ENABLE_REINITIATIONS both off. -/
def c8Cfg : RuntimeConfigM := ⟨false, false⟩

/-- A handshake request from rUSER observed at time 100. -/
def c9ReqTx : MemoTransactionM :=
  ⟨"H3", "rUSER", "rNODE", "v1.0.2025-02-01_10:00__AB12__HANDSHAKE",
   "handshake public key", 0, 100⟩

/-- A successful transaction to rUSER at the earlier time 5 whose memo_type
is byte-for-byte the wildcard parameter of the handshake pairing query, so
that only the time-ordering constraint can exclude it. -/
def c9Row : MemoRow :=
  ⟨"H4", "rNODE", "rUSER", "%HANDSHAKE_RESPONSE", none, none, "tesSUCCESS", 5⟩

/-- The same response recorded at time 200, after the request. -/
def c9LaterRow : MemoRow :=
  ⟨"H5", "rNODE", "rUSER", "%HANDSHAKE_RESPONSE", none, none, "tesSUCCESS", 200⟩

/-- A two-account holders table. -/
def c10Holders : Holders := [("rA", ⟨100, 0, "g"⟩), ("rB", ⟨7, 0, "g"⟩)]

/-- A successful transfer of 5/2 PFT from rA to the absent account rC. -/
def c10Tx : TxMemoRow := ⟨"H9", some "rA", some "rC", some (5 / 2 : Rat), 77, "tesSUCCESS"⟩

/-! ## Theorems -/

/-- Claim C1 (code bug): in Task.from_memo_groups the groups are sorted with
the latest first and the loop then overwrites each lifecycle field
unconditionally, so when two groups of a task share the PROPOSAL suffix the
field ends up holding the content and timestamp of the transaction with the
EARLIEST timestamp, not the latest as the specification states.  Here the
proposal of datetime 20 wins over the proposal of datetime 30. -/
theorem C1_duplicate_field_keeps_earliest :
    c1LateGroup.datetime = 30 ∧ c1EarlyGroup.datetime = 20 ∧
    c1LateGroup.group_id = c1EarlyGroup.group_id ∧
    (from_memo_groups [c1ReqGroup, c1LateGroup, c1EarlyGroup]).map TaskM.proposal =
      Except.ok (some "early proposal") ∧
    (from_memo_groups [c1ReqGroup, c1LateGroup, c1EarlyGroup]).map TaskM.proposal_datetime =
      Except.ok (some 20) := by
  refine ⟨rfl, rfl, rfl, ?_, ?_⟩ <;> rfl

/-- Claim C2 counterexample: when the PFT balance lookup fails with an I/O
error, ODVRequestRule.validate does not propagate the failure: it returns a
business rejection, a ValidationResult with valid equal to false and a
note. -/
theorem C2_io_error_becomes_rejection :
    c2Deps.pft_balance = Except.error "connection refused" ∧
    c2Tx.destination = c2Deps.remembrancer_address ∧
    odv_request_validate c2Tx c2Deps =
      ⟨false, some "Error validating ODV request"⟩ := by
  exact ⟨rfl, rfl, rfl⟩

/-- Claim C2 amended: for every ODV request addressed to the remembrancer,
if the PFT balance lookup raises, validate catches the exception and returns
the fixed business rejection ValidationResult(valid=false, notes="Error
validating ODV request") instead of propagating an infrastructure error. -/
theorem C2_io_error_rejection_amended (tx : MemoTransactionM) (deps : ODVDeps)
    (e : String)
    (hdest : tx.destination = deps.remembrancer_address)
    (hbal : deps.pft_balance = Except.error e) :
    odv_request_validate tx deps = ⟨false, some "Error validating ODV request"⟩ := by
  simp [odv_request_validate, hdest, hbal]

/-- Witness for C2 at the concrete scenario input. -/
theorem C2_io_error_rejection_amended_witness :
    odv_request_validate c2Tx c2Deps = ⟨false, some "Error validating ODV request"⟩ :=
  C2_io_error_rejection_amended c2Tx c2Deps "connection refused" rfl rfl

/-- Claim C3: current_state tests the lifecycle fields in the strict
precedence reward, verification response, verification prompt, completion,
refusal, acceptance, proposal, request, returning the type of the first
populated field; in particular a task with populated request, proposal,
acceptance and reward fields reports REWARD. -/
theorem C3_current_state_precedence :
    (∀ t : TaskM, truthy t.reward = true → current_state t = TaskTypeM.REWARD) ∧
    (∀ t : TaskM, truthy t.reward = false → truthy t.verification_response = true →
      current_state t = TaskTypeM.VERIFICATION_RESPONSE) ∧
    (∀ t : TaskM, truthy t.reward = false → truthy t.verification_response = false →
      truthy t.verification_prompt = true →
      current_state t = TaskTypeM.VERIFICATION_PROMPT) ∧
    (∀ t : TaskM, truthy t.reward = false → truthy t.verification_response = false →
      truthy t.verification_prompt = false → truthy t.task_completion = true →
      current_state t = TaskTypeM.TASK_COMPLETION) ∧
    (∀ t : TaskM, truthy t.reward = false → truthy t.verification_response = false →
      truthy t.verification_prompt = false → truthy t.task_completion = false →
      truthy t.refusal = true → current_state t = TaskTypeM.REFUSAL) ∧
    (∀ t : TaskM, truthy t.reward = false → truthy t.verification_response = false →
      truthy t.verification_prompt = false → truthy t.task_completion = false →
      truthy t.refusal = false → truthy t.acceptance = true →
      current_state t = TaskTypeM.ACCEPTANCE) ∧
    (∀ t : TaskM, truthy t.reward = false → truthy t.verification_response = false →
      truthy t.verification_prompt = false → truthy t.task_completion = false →
      truthy t.refusal = false → truthy t.acceptance = false →
      truthy t.proposal = true → current_state t = TaskTypeM.PROPOSAL) ∧
    (∀ t : TaskM, truthy t.reward = false → truthy t.verification_response = false →
      truthy t.verification_prompt = false → truthy t.task_completion = false →
      truthy t.refusal = false → truthy t.acceptance = false →
      truthy t.proposal = false → current_state t = TaskTypeM.TASK_REQUEST) ∧
    (∀ t : TaskM, truthy t.proposal = true → truthy t.acceptance = true →
      truthy t.reward = true → current_state t = TaskTypeM.REWARD) := by
  refine ⟨?_, ?_, ?_, ?_, ?_, ?_, ?_, ?_, ?_⟩ <;>
    intro t <;> intros <;> simp_all [current_state]

/-- Witness for C3: the fully advanced task reports REWARD, not
ACCEPTANCE. -/
theorem C3_current_state_precedence_witness :
    current_state c3Task = TaskTypeM.REWARD :=
  C3_current_state_precedence.2.2.2.2.2.2.2.2 c3Task rfl rfl rfl

/-- Claim C4 counterexample: a content string that contains the substring
bar Total PFT Rewarded bar 5000 bar but continues with further text yields
the floor value 1, not 1200, because everything after the marker is fed to
the integer conversion at once. -/
theorem C4_trailing_text_defeats_extraction :
    containsSeq "| Total PFT Rewarded | 5000 |".data
      "| Total PFT Rewarded | 5000 | Summary |".data = true ∧
    extract_pft_reward "| Total PFT Rewarded | 5000 | Summary |" = 1 := by
  exact ⟨rfl, rfl⟩

/-- Claim C4 amended: the extraction takes the text after the LAST occurrence
of the marker, deletes every pipe character and strips whitespace; when that
remainder parses as an integer the result is its absolute value clamped to
[1, 1200] (so a content string ENDING at the 5000 cell yields 1200 and one
ending at the -50 cell yields 50), and on any parse failure, including a
missing marker with no parseable integer or trailing text after the value,
the floor value 1 is returned without raising. -/
theorem C4_reward_extraction_amended :
    extract_pft_reward "| Total PFT Rewarded | 5000 |" = 1200 ∧
    extract_pft_reward "| Total PFT Rewarded | -50 |" = 50 ∧
    extract_pft_reward "no reward marker anywhere" = 1 ∧
    (∀ (c : String) (n : Int), extractRewardInt c = some n →
      extract_pft_reward c = min (max |n| 1) 1200) ∧
    (∀ c : String, extractRewardInt c = none → extract_pft_reward c = 1) := by
  refine ⟨rfl, rfl, rfl, ?_, ?_⟩
  · intro c n h
    simp [extract_pft_reward, h, MIN_REWARD_AMOUNT, MAX_REWARD_AMOUNT]
  · intro c h
    simp [extract_pft_reward, h, MIN_REWARD_AMOUNT]

/-- Witness for C4 at a concrete parseable content string. -/
theorem C4_reward_extraction_amended_witness :
    extract_pft_reward "| Total PFT Rewarded | 33 |" = min (max |(33 : Int)| 1) 1200 :=
  C4_reward_extraction_amended.2.2.2.1 "| Total PFT Rewarded | 33 |" 33 rfl

/-- Claim C5 counterexample: a rite text with only 9 non-whitespace
characters is accepted when an internal space pads the stripped length to
10, because the check strips only leading and trailing whitespace and then
counts every remaining character. -/
theorem C5_internal_whitespace_counts :
    countNonWs "aaaabbbb c".data = 9 ∧
    is_valid_initiation_rite "aaaabbbb c" = true := by
  exact ⟨rfl, rfl⟩

/-- Dropping a leading whitespace run does not change the non-whitespace
characters of a string. -/
theorem filter_dropWhile_pyIsSpace (l : List Char) :
    (l.dropWhile pyIsSpace).filter (fun c => !pyIsSpace c) =
      l.filter (fun c => !pyIsSpace c) := by
  induction l with
  | nil => rfl
  | cons c t ih =>
    by_cases h : pyIsSpace c <;> simp [List.dropWhile_cons, List.filter_cons, h, ih]

/-- Stripping leading and trailing whitespace preserves the count of
non-whitespace characters. -/
theorem countNonWs_pyStrip (l : List Char) : countNonWs (pyStrip l) = countNonWs l := by
  unfold pyStrip countNonWs
  rw [List.filter_reverse, filter_dropWhile_pyIsSpace, List.filter_reverse,
    filter_dropWhile_pyIsSpace]
  simp

/-- Claim C5 amended: the content gate accepts a rite text exactly when, after
stripping leading and trailing whitespace only, at least 10 characters remain
(internal whitespace counts toward the length); consequently every text with
at least 10 non-whitespace characters is accepted, but a text with 9 or fewer
non-whitespace characters can still be accepted when internal whitespace pads
the stripped length to 10. -/
theorem C5_content_gate_amended :
    (∀ t : String, is_valid_initiation_rite t =
      decide (10 ≤ (pyStrip t.data).length)) ∧
    (∀ t : String, 10 ≤ countNonWs t.data → is_valid_initiation_rite t = true) := by
  have hval : ∀ t : String, is_valid_initiation_rite t =
      decide (10 ≤ (pyStrip t.data).length) := by
    intro t
    by_cases h : t = ""
    · subst h; rfl
    · simp [is_valid_initiation_rite, h]
  refine ⟨hval, ?_⟩
  intro t h
  rw [hval t]
  have h1 : countNonWs t.data ≤ (pyStrip t.data).length := by
    rw [← countNonWs_pyStrip t.data]
    exact List.length_filter_le _ _
  simpa using le_trans h h1

/-- Witness for C5 at a ten-letter rite text. -/
theorem C5_content_gate_amended_witness :
    is_valid_initiation_rite "abcdefghij" = true :=
  C5_content_gate_amended.2 "abcdefghij" (by decide)

/-- Claim C7: the memo decode rule: a null payload decodes to the empty
string; a payload beginning with the two literal characters backslash and x
is hex-decoded from its third character on; any other payload is hex-decoded
whole; in particular both the prefixed and the bare spelling of 48656c6c6f
decode to Hello. -/
theorem C7_decode_hex_memo :
    decode_hex_memo (some "\\x48656c6c6f") = Except.ok "Hello" ∧
    decode_hex_memo (some "48656c6c6f") = Except.ok "Hello" ∧
    decode_hex_memo none = Except.ok "" ∧
    (∀ s : String, "\\x".data.isPrefixOf s.data = true →
      decode_hex_memo (some s) = hexToUtf8 (s.data.drop 2)) ∧
    (∀ s : String, "\\x".data.isPrefixOf s.data = false →
      decode_hex_memo (some s) = hexToUtf8 s.data) := by
  refine ⟨rfl, rfl, rfl, ?_, ?_⟩
  · intro s h; simp [decode_hex_memo, h]
  · intro s h; simp [decode_hex_memo, h]

/-- Witness for C7 at a prefixed payload. -/
theorem C7_decode_hex_memo_witness :
    decode_hex_memo (some "\\x48656c6c6f") = hexToUtf8 ("\\x48656c6c6f".data.drop 2) :=
  C7_decode_hex_memo.2.2.2.1 "\\x48656c6c6f" rfl

/-- Claim C8 (code bug): the initiation-rite pairing query compares the
response memo_type with SQL equality, while the rule passes the wildcard
string percent-INITIATION_REWARD; the wildcard is therefore matched
literally and an already-recorded successful initiation reward for the
requesting account is never found, so re-running the pipeline would generate
a second response.  The recorded reward row here satisfies every other
condition of the query (destination, success, suffix; the time constraint is
off on mainnet), yet the lookup returns no row. -/
theorem C8_initiation_pairing_misses_recorded_reward :
    c8RewardRow.transaction_result = "tesSUCCESS" ∧
    c8RewardRow.destination = c8ReqTx.account ∧
    "__INITIATION_REWARD".data.isSuffixOf c8RewardRow.memo_type.data = true ∧
    (initiation_rite_find_response c8Cfg c8ReqTx).require_after_request = false ∧
    runResponseQuery [c8RewardRow] (initiation_rite_find_response c8Cfg c8ReqTx) = none := by
  exact ⟨rfl, rfl, rfl, rfl, rfl⟩

/-- Claim C9 counterexample: the handshake pairing query is built with
require_after_request hard-coded to TRUE, so the time-ordering constraint IS
enforced: a successful response row addressed to the requester that matches
the memo_type parameter byte-for-byte but closed before the request is not
returned. -/
theorem C9_handshake_enforces_time_order :
    (handshake_find_response c9ReqTx).require_after_request = true ∧
    c9Row.memo_type = (handshake_find_response c9ReqTx).response_memo_type ∧
    c9Row.destination = c9ReqTx.account ∧
    c9Row.transaction_result = "tesSUCCESS" ∧
    c9Row.close_time < c9ReqTx.datetime ∧
    runResponseQuery [c9Row] (handshake_find_response c9ReqTx) = none := by
  exact ⟨rfl, rfl, rfl, rfl, by decide, rfl⟩

/-- Claim C9 amended: the handshake pairing query sets require_after_request
to TRUE (despite the comment next to it), so the time-ordering constraint IS
enforced for handshakes; the re-initiation override (testnet with
re-initiations enabled) likewise ENABLES the constraint for initiation
rites; and among the rows satisfying the filter the earliest successful
matching transaction wins, at most one row being returned. -/
theorem C9_handshake_pairing_amended :
    (∀ tx : MemoTransactionM, (handshake_find_response tx).require_after_request = true) ∧
    (∀ cfg : RuntimeConfigM,
      should_require_after_request cfg = (cfg.USE_TESTNET && cfg.ENABLE_REINITIATIONS)) ∧
    (∀ (rows : List MemoRow) (q : ResponseQueryM) (r : MemoRow),
      runResponseQuery rows q = some r →
      r ∈ rows ∧
      ftrPred q.account q.request_time q.response_memo_type none none
        q.require_after_request r = true ∧
      (q.require_after_request = true → q.request_time < r.close_time) ∧
      ∀ y ∈ rows,
        ftrPred q.account q.request_time q.response_memo_type none none
          q.require_after_request y = true → r.close_time ≤ y.close_time) := by
  refine ⟨fun _ => rfl, fun _ => rfl, ?_⟩
  intro rows q r h
  unfold runResponseQuery find_transaction_response at h
  set pred := ftrPred q.account q.request_time q.response_memo_type none none
    q.require_after_request with hpred
  set sortedRows := (rows.filter pred).insertionSort rowLe with hsorted
  cases hcons : sortedRows with
  | nil => rw [hcons] at h; simp at h
  | cons a t =>
    rw [hcons] at h
    simp only [List.head?_cons, Option.some.injEq] at h
    rw [← h]
    have hmem : a ∈ rows.filter pred := by
      have : a ∈ sortedRows := by rw [hcons]; exact List.mem_cons_self _ _
      simpa [hsorted] using this
    have hr : a ∈ rows ∧ pred a = true := by
      simpa using List.mem_filter.mp hmem
    have htime : q.require_after_request = true → q.request_time < a.close_time := by
      intro hreq
      have hp := hr.2
      rw [hpred] at hp
      unfold ftrPred at hp
      rw [hreq] at hp
      simp only [Bool.and_eq_true, Bool.or_eq_true, Bool.not_eq_true', decide_eq_true_eq]
        at hp
      rcases hp.1.1.1.2 with hfalse | hlt
      · cases hfalse
      · exact hlt
    refine ⟨hr.1, hr.2, htime, ?_⟩
    intro y hy hpy
    have hymem : y ∈ sortedRows := by
      rw [hsorted]
      simp only [List.mem_insertionSort]
      exact List.mem_filter.mpr (by simp [hy, hpy])
    rw [hcons] at hymem
    rcases List.mem_cons.mp hymem with rfl | hyt
    · exact Nat.le_refl _
    · have hsortedlist : List.Sorted rowLe sortedRows := by
        rw [hsorted]; exact List.sorted_insertionSort rowLe _
      rw [hcons] at hsortedlist
      exact (List.sorted_cons.mp hsortedlist).1 y hyt

/-- Witness for C9: a matching response recorded after the request is found,
and the theorem yields the enforced time bound at that concrete input. -/
theorem C9_handshake_pairing_amended_witness :
    c9ReqTx.datetime < c9LaterRow.close_time :=
  ((C9_handshake_pairing_amended.2.2 [c9LaterRow]
    (handshake_find_response c9ReqTx) c9LaterRow rfl).2.2.1) rfl

/-- Upserting a holder row changes the table total by the difference between
the new balance and the previous one (a missing row reads as 0). -/
theorem totalBalance_upsertHolder (hs : Holders) (a : String) (r : HolderRow) :
    totalBalance (upsertHolder hs a r) =
      totalBalance hs - ((lookupBalance hs a).getD 0) + r.balance := by
  induction hs with
  | nil => simp [upsertHolder, totalBalance, lookupBalance]
  | cons p t ih =>
    obtain ⟨b, rb⟩ := p
    by_cases h : b = a
    · subst h
      simp [upsertHolder, totalBalance, lookupBalance, List.lookup]
      ring
    · have hba : (a == b) = false := by
        simp [Ne.symm h]
      simp only [upsertHolder, totalBalance, lookupBalance, List.lookup, hba,
        if_neg h, List.map_cons, List.sum_cons] at *
      rw [ih]
      ring

/-- After an upsert, the upserted account reads the new balance. -/
theorem lookupBalance_upsertHolder_same (hs : Holders) (a : String) (r : HolderRow) :
    lookupBalance (upsertHolder hs a r) a = some r.balance := by
  induction hs with
  | nil => simp [upsertHolder, lookupBalance, List.lookup]
  | cons p t ih =>
    obtain ⟨b, rb⟩ := p
    by_cases h : b = a
    · subst h
      simp [upsertHolder, lookupBalance, List.lookup]
    · have hba : (a == b) = false := by
        simp [Ne.symm h]
      simpa [upsertHolder, lookupBalance, List.lookup, hba, if_neg h] using ih

/-- After an upsert, every other account reads its previous balance. -/
theorem lookupBalance_upsertHolder_other (hs : Holders) (a : String) (r : HolderRow)
    (c : String) (h : c ≠ a) :
    lookupBalance (upsertHolder hs a r) c = lookupBalance hs c := by
  induction hs with
  | nil =>
    have hca : (c == a) = false := by simp [h]
    simp [upsertHolder, lookupBalance, List.lookup, hca]
  | cons p t ih =>
    obtain ⟨b, rb⟩ := p
    by_cases hb : b = a
    · subst hb
      have hcb : (c == b) = false := by simp [h]
      simp [upsertHolder, lookupBalance, List.lookup, hcb]
    · by_cases hcb : c = b
      · subst hcb
        simp [upsertHolder, lookupBalance, List.lookup, if_neg hb]
      · have hcb2 : (c == b) = false := by simp [hcb]
        simpa [upsertHolder, lookupBalance, List.lookup, if_neg hb, hcb2] using ih

/-- Claim C10: for a successfully recorded transaction with non-null sender,
destination and amount, the trigger subtracts the amount from the sender and
adds it to the recipient (absent accounts read as balance 0), leaving the sum
of all balances unchanged; non-tesSUCCESS results and null amounts leave the
table untouched. -/
theorem C10_update_pft_holders_conserves_total :
    (∀ (hs : Holders) (tx : TxMemoRow) (s d : String) (amt : Rat),
      tx.transaction_result = "tesSUCCESS" → tx.account = some s →
      tx.destination = some d → tx.pft_amount = some amt →
      totalBalance (update_pft_holders hs tx) = totalBalance hs ∧
      (s ≠ d →
        (lookupBalance (update_pft_holders hs tx) s).getD 0 =
          (lookupBalance hs s).getD 0 - amt ∧
        (lookupBalance (update_pft_holders hs tx) d).getD 0 =
          (lookupBalance hs d).getD 0 + amt)) ∧
    (∀ (hs : Holders) (tx : TxMemoRow), tx.transaction_result ≠ "tesSUCCESS" →
      update_pft_holders hs tx = hs) ∧
    (∀ (hs : Holders) (tx : TxMemoRow), tx.pft_amount = none →
      update_pft_holders hs tx = hs) := by
  refine ⟨?_, ?_, ?_⟩
  · intro hs tx s d amt hres hacct hdest hamt
    unfold update_pft_holders
    rw [hres, hacct, hdest, hamt]
    simp only [ne_eq, not_true_eq_false, if_false, ite_false]
    constructor
    · rw [totalBalance_upsertHolder, totalBalance_upsertHolder]
      ring
    · intro hsd
      constructor
      · rw [lookupBalance_upsertHolder_other _ _ _ _ hsd,
          lookupBalance_upsertHolder_same]
        simp
      · rw [lookupBalance_upsertHolder_same,
          lookupBalance_upsertHolder_other _ _ _ _ (Ne.symm hsd)]
        simp
  · intro hs tx h
    simp [update_pft_holders, h]
  · intro hs tx h
    unfold update_pft_holders
    rw [h]
    cases tx.account <;> cases tx.destination <;> simp

/-- Witness for C10 at the concrete two-account table and transfer. -/
theorem C10_update_pft_holders_conserves_total_witness :
    totalBalance (update_pft_holders c10Holders c10Tx) = totalBalance c10Holders :=
  (C10_update_pft_holders_conserves_total.1 c10Holders c10Tx "rA" "rC" (5 / 2)
    rfl rfl rfl rfl).1

/-! ## Lemmas on the unique-id matcher, for claim C6 -/

/-- A literal matches its own append. -/
theorem expectLit_append (s r : List Char) : expectLit s (s ++ r) = some r := by
  induction s with
  | nil => rfl
  | cons c cs ih => simp [expectLit, ih]

/-- A successful literal match decomposes the input. -/
theorem expectLit_eq_some {s l r : List Char} (h : expectLit s l = some r) :
    l = s ++ r := by
  induction s generalizing l with
  | nil => simpa [expectLit] using h
  | cons c cs ih =>
    cases l with
    | nil => simp [expectLit] at h
    | cons x xs =>
      by_cases hx : x = c
      · subst hx
        simpa using ih (by simpa [expectLit] using h)
      · simp [expectLit, hx] at h

/-- A successful digit-run match decomposes the input and yields digits. -/
theorem expectDigits_eq_some {n : Nat} {l d r : List Char}
    (h : expectDigits n l = some (d, r)) :
    l = d ++ r ∧ d.length = n ∧ ∀ c ∈ d, c.isDigit = true := by
  induction n generalizing l d with
  | zero =>
    simp only [expectDigits, Option.some.injEq, Prod.mk.injEq] at h
    obtain ⟨hd, hr⟩ := h
    subst hd; subst hr
    simp
  | succ n ih =>
    cases l with
    | nil => simp [expectDigits] at h
    | cons c cs =>
      by_cases hc : c.isDigit
      · simp only [expectDigits, hc, if_true, Option.map_eq_some'] at h
        obtain ⟨⟨d1, r1⟩, hrec, heq⟩ := h
        simp only [Prod.mk.injEq] at heq
        obtain ⟨hd, hr⟩ := heq
        subst hd; subst hr
        obtain ⟨hl, hlen, hdig⟩ := ih hrec
        subst hl
        refine ⟨rfl, by simp [hlen], ?_⟩
        intro x hx
        rcases List.mem_cons.mp hx with rfl | hx2
        · exact hc
        · exact hdig x hx2
      · simp [expectDigits, hc] at h

/-- A digit run matches its own append. -/
theorem expectDigits_append {d : List Char} (hd : ∀ c ∈ d, c.isDigit = true)
    (r : List Char) : expectDigits d.length (d ++ r) = some (d, r) := by
  induction d with
  | nil => rfl
  | cons c cs ih =>
    have hc : c.isDigit = true := hd c (List.mem_cons_self _ _)
    have ih2 := ih (fun x hx => hd x (List.mem_cons_of_mem _ hx))
    simp [expectDigits, hc, ih2]

/-- A successful token run decomposes the input. -/
theorem runToks_eq_some {ts : List Tok} {l m r : List Char}
    (h : runToks ts l = some (m, r)) : l = m ++ r := by
  induction ts generalizing l m with
  | nil =>
    simp only [runToks, Option.some.injEq, Prod.mk.injEq] at h
    obtain ⟨hm, hr⟩ := h
    subst hm; subst hr; rfl
  | cons t ts ih =>
    cases t with
    | lit s =>
      cases hlit : expectLit s l with
      | none => simp [runToks, hlit] at h
      | some r1 =>
        simp only [runToks, hlit] at h
        cases hrun : runToks ts r1 with
        | none => simp [hrun] at h
        | some p =>
          obtain ⟨m1, rest⟩ := p
          simp only [hrun, Option.some.injEq, Prod.mk.injEq] at h
          obtain ⟨hm, hr⟩ := h
          subst hm; subst hr
          rw [expectLit_eq_some hlit, ih hrun, List.append_assoc]
    | dig n =>
      cases hdig : expectDigits n l with
      | none => simp [runToks, hdig] at h
      | some p =>
        obtain ⟨d, r1⟩ := p
        simp only [runToks, hdig] at h
        cases hrun : runToks ts r1 with
        | none => simp [hrun] at h
        | some p2 =>
          obtain ⟨m1, rest⟩ := p2
          simp only [hrun, Option.some.injEq, Prod.mk.injEq] at h
          obtain ⟨hm, hr⟩ := h
          subst hm; subst hr
          rw [(expectDigits_eq_some hdig).1, ih hrun, List.append_assoc]

/-- Replaying a successful token run on the consumed characters followed by
any other tail consumes exactly the same characters. -/
theorem runToks_replay {ts : List Tok} {l m r : List Char}
    (h : runToks ts l = some (m, r)) (x : List Char) :
    runToks ts (m ++ x) = some (m, x) := by
  induction ts generalizing l m r with
  | nil =>
    simp only [runToks, Option.some.injEq, Prod.mk.injEq] at h
    obtain ⟨hm, _⟩ := h
    subst hm
    rfl
  | cons t ts ih =>
    cases t with
    | lit s =>
      cases hlit : expectLit s l with
      | none => simp [runToks, hlit] at h
      | some r1 =>
        simp only [runToks, hlit] at h
        cases hrun : runToks ts r1 with
        | none => simp [hrun] at h
        | some p =>
          obtain ⟨m1, rest⟩ := p
          simp only [hrun, Option.some.injEq, Prod.mk.injEq] at h
          obtain ⟨hm, _⟩ := h
          subst hm
          have hrep := ih hrun
          simp [runToks, List.append_assoc, expectLit_append, hrep]
    | dig n =>
      cases hdig : expectDigits n l with
      | none => simp [runToks, hdig] at h
      | some p =>
        obtain ⟨d, r1⟩ := p
        simp only [runToks, hdig] at h
        cases hrun : runToks ts r1 with
        | none => simp [hrun] at h
        | some p2 =>
          obtain ⟨m1, rest⟩ := p2
          simp only [hrun, Option.some.injEq, Prod.mk.injEq] at h
          obtain ⟨hm, _⟩ := h
          subst hm
          obtain ⟨_, hlen, hdigits⟩ := expectDigits_eq_some hdig
          have hrep := ih hrun
          have hda := expectDigits_append hdigits (m1 ++ x)
          rw [hlen] at hda
          simp [runToks, List.append_assoc, hda, hrep]

/-- A successful disambiguator match decomposes the input and replays on any
tail. -/
theorem matchDisambAt_eq_some {l d r : List Char} (h : matchDisambAt l = some (d, r)) :
    l = d ++ r ∧ ∀ x, matchDisambAt (d ++ x) = some (d, x) := by
  unfold matchDisambAt at h
  split at h
  · rename_i a b c1 c2 c3 c4 rest
    split at h
    · rename_i hcond
      simp only [Option.some.injEq, Prod.mk.injEq] at h
      obtain ⟨hd, hr⟩ := h
      subst hd; subst hr
      refine ⟨rfl, ?_⟩
      intro x
      show matchDisambAt (a :: b :: c1 :: c2 :: c3 :: c4 :: x) = _
      simp only [matchDisambAt]
      rw [if_pos hcond]
    · cases h
  · cases h

/-- An anchored match at the head of the list determines the search result. -/
theorem searchUniqueId_of_matchAt {l m r : List Char}
    (h : matchUniqueIdAt l = some (m, r)) : searchUniqueId l = some m := by
  cases l with
  | nil => rw [show matchUniqueIdAt [] = none from rfl] at h; cases h
  | cons c t => simp [searchUniqueId, h]

/-- A complete unique id either consists of the core alone or of the core
followed by a complete disambiguator. -/
theorem uniqueId_cases {u : List Char} (h : IsUniqueId u) :
    runToks coreToks u = some (u, []) ∨
    (∃ m d, runToks coreToks u = some (m, d) ∧ matchDisambAt d = some (d, []) ∧
      u = m ++ d) := by
  unfold IsUniqueId matchUniqueIdAt at h
  split at h
  · cases h
  · rename_i m rest hrun
    split at h
    · rename_i d rest2 hd
      simp only [Option.some.injEq, Prod.mk.injEq] at h
      obtain ⟨hmd, hrest2⟩ := h
      subst hrest2
      have hrd : rest = d := by simpa using (matchDisambAt_eq_some hd).1
      subst hrd
      right
      exact ⟨m, rest, hrun, hd, hmd.symm⟩
    · rename_i hd
      simp only [Option.some.injEq, Prod.mk.injEq] at h
      obtain ⟨hm, hrest⟩ := h
      subst hrest
      left
      rw [hrun, hm]

/-- Appending any tail to a unique id that ends in a disambiguator matches
exactly the id again. -/
theorem matchAt_disamb_append {u m d : List Char}
    (hrun : runToks coreToks u = some (m, d))
    (hd : matchDisambAt d = some (d, [])) (hu : u = m ++ d) (x : List Char) :
    matchUniqueIdAt (u ++ x) = some (u, x) := by
  have hrep := runToks_replay hrun (d ++ x)
  have hdx := (matchDisambAt_eq_some hd).2 x
  rw [hu, List.append_assoc]
  simp only [matchUniqueIdAt, hrep, hdx]

/-- Appending any tail to a bare-core unique id: the result is governed by
whether the tail itself begins with a disambiguator. -/
theorem matchAt_core_append {u : List Char}
    (hrun : runToks coreToks u = some (u, [])) (x : List Char) :
    matchUniqueIdAt (u ++ x) =
      match matchDisambAt x with
      | some (d, r2) => some (u ++ d, r2)
      | none => some (u, x) := by
  have hrep := runToks_replay hrun x
  simp only [matchUniqueIdAt, hrep]

/-- Packaging of the three C6 conclusions from the two search computations
and the inequality of the raw character lists. -/
theorem derive_package {orig tid resp : List Char}
    (hsearch : searchUniqueId orig = some tid)
    (hsearch2 : searchUniqueId (tid ++ ('_' :: '_' :: resp)) = some tid)
    (hne : tid ++ ('_' :: '_' :: resp) ≠ orig) :
    searchUniqueId orig = some tid ∧
    derive_response_memo_type ⟨orig⟩ ⟨resp⟩ =
      Except.ok ⟨tid ++ ('_' :: '_' :: resp)⟩ ∧
    (⟨tid ++ ('_' :: '_' :: resp)⟩ : String) ≠ ⟨orig⟩ ∧
    searchUniqueId (tid ++ ('_' :: '_' :: resp)) = some tid := by
  refine ⟨hsearch, ?_, ?_, hsearch2⟩
  · show (match searchUniqueId orig with
      | none => Except.error _
      | some task_id => Except.ok (String.mk (task_id ++ ('_' :: '_' :: resp)))) = _
    rw [hsearch]
  · intro heq
    injection heq with h2
    exact hne h2

/-- Claim C6: for every complete unique id, forming a request memo_type from
it with one of the four request suffixes used by the engine and deriving the
paired response memo_type yields a string that differs from the request
memo_type while the unique-id token extracted from the derived type equals
the token extracted from the original; and deriving from a memo_type with no
unique-id token raises ValueError instead of defaulting. -/
theorem C6_derive_preserves_task_id :
    (∀ (u : List Char) (p : DerivationPair), IsUniqueId u →
      ∃ tid : List Char,
        searchUniqueId (u ++ ('_' :: '_' :: p.req.data)) = some tid ∧
        derive_response_memo_type ⟨u ++ ('_' :: '_' :: p.req.data)⟩ p.resp =
          Except.ok ⟨tid ++ ('_' :: '_' :: p.resp.data)⟩ ∧
        (⟨tid ++ ('_' :: '_' :: p.resp.data)⟩ : String) ≠
          ⟨u ++ ('_' :: '_' :: p.req.data)⟩ ∧
        searchUniqueId (tid ++ ('_' :: '_' :: p.resp.data)) = some tid) ∧
    (∀ m s : String, searchUniqueId m.data = none →
      derive_response_memo_type m s =
        Except.error ("Could not extract task_id from memo_type: " ++ m)) := by
  refine ⟨?_, ?_⟩
  · intro u p h
    rcases uniqueId_cases h with hcore | ⟨m, d, hrun, hd, hu⟩
    · cases p
      case postFiat =>
        refine ⟨u ++ "__TASK".data, ?_⟩
        have hm1 : matchUniqueIdAt (u ++ ('_' :: '_' :: "TASK_REQUEST".data)) =
            some (u ++ "__TASK".data, "_REQUEST".data) := by
          rw [matchAt_core_append hcore]; exact rfl
        have hm2 : matchUniqueIdAt
            ((u ++ "__TASK".data) ++ ('_' :: '_' :: "PROPOSAL".data)) =
            some (u ++ "__TASK".data, '_' :: '_' :: "PROPOSAL".data) := by
          rw [List.append_assoc, matchAt_core_append hcore]; exact rfl
        refine derive_package (searchUniqueId_of_matchAt hm1)
          (searchUniqueId_of_matchAt hm2) ?_
        intro heq
        rw [List.append_assoc] at heq
        exact absurd (List.append_cancel_left heq) (by decide)
      case taskOutput =>
        refine ⟨u ++ "__TASK".data, ?_⟩
        have hm1 : matchUniqueIdAt (u ++ ('_' :: '_' :: "TASK_COMPLETION".data)) =
            some (u ++ "__TASK".data, "_COMPLETION".data) := by
          rw [matchAt_core_append hcore]; exact rfl
        have hm2 : matchUniqueIdAt
            ((u ++ "__TASK".data) ++ ('_' :: '_' :: "VERIFICATION_PROMPT".data)) =
            some (u ++ "__TASK".data, '_' :: '_' :: "VERIFICATION_PROMPT".data) := by
          rw [List.append_assoc, matchAt_core_append hcore]; exact rfl
        refine derive_package (searchUniqueId_of_matchAt hm1)
          (searchUniqueId_of_matchAt hm2) ?_
        intro heq
        rw [List.append_assoc] at heq
        exact absurd (List.append_cancel_left heq) (by decide)
      case verification =>
        refine ⟨u ++ "__VERI".data, ?_⟩
        have hm1 : matchUniqueIdAt
            (u ++ ('_' :: '_' :: "VERIFICATION_RESPONSE".data)) =
            some (u ++ "__VERI".data, "FICATION_RESPONSE".data) := by
          rw [matchAt_core_append hcore]; exact rfl
        have hm2 : matchUniqueIdAt
            ((u ++ "__VERI".data) ++ ('_' :: '_' :: "REWARD".data)) =
            some (u ++ "__VERI".data, '_' :: '_' :: "REWARD".data) := by
          rw [List.append_assoc, matchAt_core_append hcore]; exact rfl
        refine derive_package (searchUniqueId_of_matchAt hm1)
          (searchUniqueId_of_matchAt hm2) ?_
        intro heq
        rw [List.append_assoc] at heq
        exact absurd (List.append_cancel_left heq) (by decide)
      case odv =>
        refine ⟨u, ?_⟩
        have hm1 : matchUniqueIdAt (u ++ ('_' :: '_' :: "ODV_REQUEST".data)) =
            some (u, '_' :: '_' :: "ODV_REQUEST".data) := by
          rw [matchAt_core_append hcore]; exact rfl
        have hm2 : matchUniqueIdAt (u ++ ('_' :: '_' :: "ODV_RESPONSE".data)) =
            some (u, '_' :: '_' :: "ODV_RESPONSE".data) := by
          rw [matchAt_core_append hcore]; exact rfl
        refine derive_package (searchUniqueId_of_matchAt hm1)
          (searchUniqueId_of_matchAt hm2) ?_
        intro heq
        exact absurd (List.append_cancel_left heq) (by decide)
    · refine ⟨u, ?_⟩
      have h1 := searchUniqueId_of_matchAt
        (matchAt_disamb_append hrun hd hu ('_' :: '_' :: p.req.data))
      have h2 := searchUniqueId_of_matchAt
        (matchAt_disamb_append hrun hd hu ('_' :: '_' :: p.resp.data))
      refine derive_package h1 h2 ?_
      intro heq
      have h3 := List.append_cancel_left heq
      cases p <;> exact absurd h3 (by decide)
  · intro m s h
    show (match searchUniqueId m.data with
      | none => Except.error ("Could not extract task_id from memo_type: " ++ m)
      | some task_id => Except.ok (String.mk (task_id ++ ('_' :: '_' :: s.data)))) = _
    rw [h]

/-- Witness for C6: the documented example id with disambiguator QQ74,
derived from TASK_REQUEST to PROPOSAL, plus the ValueError case on a
memo_type with no unique-id token. -/
theorem C6_derive_preserves_task_id_witness :
    (∃ tid : List Char,
      searchUniqueId ("v1.0.2025-01-13_06:53__QQ74".data ++
        ('_' :: '_' :: (DerivationPair.postFiat).req.data)) = some tid ∧
      derive_response_memo_type
        ⟨"v1.0.2025-01-13_06:53__QQ74".data ++
          ('_' :: '_' :: (DerivationPair.postFiat).req.data)⟩
        (DerivationPair.postFiat).resp =
          Except.ok ⟨tid ++ ('_' :: '_' :: (DerivationPair.postFiat).resp.data)⟩ ∧
      (⟨tid ++ ('_' :: '_' :: (DerivationPair.postFiat).resp.data)⟩ : String) ≠
        ⟨"v1.0.2025-01-13_06:53__QQ74".data ++
          ('_' :: '_' :: (DerivationPair.postFiat).req.data)⟩ ∧
      searchUniqueId (tid ++ ('_' :: '_' :: (DerivationPair.postFiat).resp.data)) =
        some tid) ∧
    derive_response_memo_type "HELLO" "PROPOSAL" =
      Except.error ("Could not extract task_id from memo_type: " ++ "HELLO") :=
  ⟨C6_derive_preserves_task_id.1 "v1.0.2025-01-13_06:53__QQ74".data
      DerivationPair.postFiat (by decide),
    C6_derive_preserves_task_id.2 "HELLO" "PROPOSAL" rfl⟩
